/-
Verification of the clipfacile timeline-editor core.

This file shallowly embeds the timeline store (src/app/stores/editor.ts),
the compositor draw pass (src/app/composables/useCompositor.ts) and the
playback drift-correction logic (preview engine, syncMediaElement) in Lean 4,
and proves or refutes the specified properties of those operations.

Modelling conventions:
- Millisecond/second time values and zoom factors are rationals (JS numbers
  idealised as exact arithmetic).
- `crypto.randomUUID()` is passed in as an explicit `newId` argument.
- JS `Array.prototype.sort` (stable since ES2019) is modelled by
  `List.insertionSort`, which is the stable sort on lists.
- JS truthiness tests on possibly-null strings (`if (excludeClipId && ...)`)
  are modelled on `Option String`, including the fact that the empty string
  is falsy.
- State-mutating store actions become functions `EditorState → ... → result ×
  EditorState`; actions that return a value and mutate return both.
-/
import Mathlib

namespace Clipfacile

/-- Track type: `'video' | 'audio' | 'text'` (src/shared/types). -/
inductive TrackType where
  | video
  | audio
  | text
deriving DecidableEq, Repr

/-- Media type of an imported asset: `'video' | 'audio' | 'image'`. -/
inductive MediaType where
  | video
  | audio
  | image
deriving DecidableEq, Repr

/-- A timeline track (src/shared/types): id, type, display name, z/UI order,
muted and locked flags. -/
structure Track where
  id : String
  type : TrackType
  name : String
  order : Int
  muted : Bool
  locked : Bool
deriving DecidableEq, Repr

/-- A placed clip. The TS `Clip` is a tagged union; video/audio clips carry
`sourceId`, `sourceStart`, `sourceEnd`, text clips do not, which is modelled
with `Option` fields (the store reads them with `?? 0` fallbacks). -/
structure Clip where
  id : String
  type : TrackType
  trackId : String
  timelineStart : ℚ
  duration : ℚ
  sourceId : Option String
  sourceStart : Option ℚ
  sourceEnd : Option ℚ
  volume : ℚ
  muted : Bool
deriving DecidableEq, Repr

/-- An imported media file; `duration = -1` marks an unbounded source
(image). Only the fields the store operations consult are kept. -/
structure MediaFile where
  id : String
  type : MediaType
  duration : ℚ
deriving DecidableEq, Repr

/-- The observable store state used by the edit operations: tracks, clips,
media files, selection, current time, derived project duration, zoom. -/
structure EditorState where
  tracks : List Track
  clips : List Clip
  mediaFiles : List MediaFile
  selectedClipId : Option String
  currentTime : ℚ
  duration : ℚ
  zoom : ℚ
deriving DecidableEq, Repr

/-- `DEFAULT_IMAGE_DURATION = 5000` (editor.ts line 4). -/
def DEFAULT_IMAGE_DURATION : ℚ := 5000

/-- `MAX_TRACKS_PER_TYPE = 10` (editor.ts line 7). -/
def MAX_TRACKS_PER_TYPE : ℕ := 10

/-- `MIN_CLIP_DURATION = 100` (editor.ts line 232). -/
def MIN_CLIP_DURATION : ℚ := 100

/-- `hasCollision(trackId, start, clipDuration, excludeClipId)`
(editor.ts lines 128-136): half-open interval overlap test against every
clip on the given track, optionally excluding one clip id. The JS guard
`excludeClipId && clip.id === excludeClipId` treats both `null` and the
empty string as falsy. -/
def hasCollision (s : EditorState) (trackId : String) (start clipDuration : ℚ)
    (excludeClipId : Option String) : Bool :=
  let stop := start + clipDuration
  s.clips.any fun clip =>
    if clip.trackId != trackId then false
    else if (match excludeClipId with
             | some ex => ex != "" && clip.id == ex
             | none => false) then false
    else
      let clipEnd := clip.timelineStart + clip.duration
      decide (start < clipEnd) && decide (stop > clip.timelineStart)

/-- The value computed by `updateDuration` (editor.ts lines 401-407):
`0` for an empty clip list, otherwise `Math.max(...clips.map(c =>
c.timelineStart + c.duration))`. -/
def derivedDuration (clips : List Clip) : ℚ :=
  match clips with
  | [] => 0
  | c :: cs =>
    cs.foldl (fun acc x => max acc (x.timelineStart + x.duration))
      (c.timelineStart + c.duration)

/-- `updateDuration()` (editor.ts lines 401-407) applied to the state. -/
def updateDuration (s : EditorState) : EditorState :=
  { s with duration := derivedDuration s.clips }

/-- `addClip(mediaFileId, trackId, timelineStart)` (editor.ts lines 138-170).
Returns the created clip (or `none` on rejection) with the updated state.
`newId` stands for `crypto.randomUUID()`. -/
def addClip (s : EditorState) (mediaFileId trackId : String) (timelineStart : ℚ)
    (newId : String) : Option Clip × EditorState :=
  match s.mediaFiles.find? (fun m => m.id == mediaFileId) with
  | none => (none, s)
  | some mediaFile =>
    match s.tracks.find? (fun t => t.id == trackId) with
    | none => (none, s)
    | some track =>
      let clipType : TrackType :=
        match mediaFile.type with
        | MediaType.video => TrackType.video
        | MediaType.image => TrackType.video
        | MediaType.audio => TrackType.audio
      if track.type ≠ clipType then (none, s)
      else
        let clipDuration :=
          if mediaFile.duration = -1 then DEFAULT_IMAGE_DURATION else mediaFile.duration
        if hasCollision s trackId timelineStart clipDuration none then (none, s)
        else
          let clip : Clip :=
            { id := newId
              type := clipType
              trackId := trackId
              timelineStart := max 0 timelineStart
              duration := clipDuration
              sourceId := some mediaFile.id
              sourceStart := some 0
              sourceEnd := some clipDuration
              volume := 1
              muted := false }
          (some clip, updateDuration { s with clips := s.clips ++ [clip] })

/-- `moveClip(clipId, newTrackId, newTimelineStart)` (editor.ts lines 172-192). -/
def moveClip (s : EditorState) (clipId newTrackId : String)
    (newTimelineStart : ℚ) : Bool × EditorState :=
  match s.clips.findIdx? (fun c => c.id == clipId) with
  | none => (false, s)
  | some clipIndex =>
    match s.clips[clipIndex]? with
    | none => (false, s)
    | some clip =>
      match s.tracks.find? (fun t => t.id == newTrackId) with
      | none => (false, s)
      | some track =>
        if track.type ≠ clip.type then (false, s)
        else if hasCollision s newTrackId newTimelineStart clip.duration (some clipId) then
          (false, s)
        else
          (true, updateDuration { s with
            clips := s.clips.set clipIndex
              { clip with trackId := newTrackId, timelineStart := max 0 newTimelineStart } })

/-- `removeClip(clipId)` (editor.ts lines 194-204). -/
def removeClip (s : EditorState) (clipId : String) : EditorState :=
  match s.clips.findIdx? (fun c => c.id == clipId) with
  | none => s
  | some i =>
    let s1 := { s with clips := s.clips.eraseIdx i }
    let s2 :=
      if s1.selectedClipId = some clipId then { s1 with selectedClipId := none } else s1
    updateDuration s2

/-- The `mediaFile?.duration ?? -1` lookup at the top of `resizeClip`
(editor.ts lines 220-221): resolve the clip's source media duration,
`-1` when the clip has no source id or the media file is missing. -/
def sourceDurationOf (mediaFiles : List MediaFile) (clip : Clip) : ℚ :=
  match clip.sourceId with
  | none => -1
  | some sid =>
    match mediaFiles.find? (fun m => m.id == sid) with
    | none => -1
    | some m => m.duration

/-- Which edge of a clip is dragged in `resizeClip`. -/
inductive Edge where
  | left
  | right
deriving DecidableEq, Repr

/-- The four values `resizeClip` computes before committing. -/
structure ResizePlan where
  newTimelineStart : ℚ
  newDuration : ℚ
  newSourceStart : ℚ
  newSourceEnd : ℚ
deriving DecidableEq, Repr

/-- The computation of `newTimelineStart` / `newDuration` / `newSourceStart` /
`newSourceEnd` inside `resizeClip` (editor.ts lines 224-286), for the
resolved `sourceDuration` of the clip's media source. -/
def resizePlan (sourceDuration : ℚ) (clip : Clip) (edge : Edge)
    (newEdgeTimeMs : ℚ) : ResizePlan :=
  let isUnlimited := sourceDuration = -1
  let currentStart := clip.timelineStart
  let currentSourceStart := clip.sourceStart.getD 0
  match edge with
  | Edge.right =>
    let nd0 := max MIN_CLIP_DURATION (newEdgeTimeMs - currentStart)
    let newDuration :=
      if ¬ isUnlimited then min nd0 (sourceDuration - currentSourceStart) else nd0
    { newTimelineStart := currentStart
      newDuration := newDuration
      newSourceStart := currentSourceStart
      newSourceEnd := currentSourceStart + newDuration }
  | Edge.left =>
    let newStart := max 0 newEdgeTimeMs
    let deltaMs := currentStart - newStart
    if ¬ isUnlimited then
      let maxLeftMove := currentSourceStart
      let actualDelta := min deltaMs maxLeftMove
      if deltaMs < 0 then
        let maxShrink := clip.duration - MIN_CLIP_DURATION
        let actualShrink := min (-deltaMs) maxShrink
        let nss := currentSourceStart + actualShrink
        let nd := clip.duration - actualShrink
        { newTimelineStart := currentStart + actualShrink
          newDuration := nd
          newSourceStart := nss
          newSourceEnd := nss + nd }
      else
        let nss := currentSourceStart - actualDelta
        let nd := clip.duration + actualDelta
        { newTimelineStart := currentStart - actualDelta
          newDuration := nd
          newSourceStart := nss
          newSourceEnd := nss + nd }
    else
      if deltaMs < 0 then
        let maxShrink := clip.duration - MIN_CLIP_DURATION
        let actualShrink := min (-deltaMs) maxShrink
        let nd := clip.duration - actualShrink
        { newTimelineStart := currentStart + actualShrink
          newDuration := nd
          newSourceStart := 0
          newSourceEnd := nd }
      else
        let nd := clip.duration + deltaMs
        { newTimelineStart := newStart
          newDuration := nd
          newSourceStart := 0
          newSourceEnd := nd }

/-- `resizeClip(clipId, edge, newEdgeTimeMs)` (editor.ts lines 213-305):
compute the new placement, reject on collision (excluding the clip itself),
otherwise commit all four fields and recompute the duration. -/
def resizeClip (s : EditorState) (clipId : String) (edge : Edge)
    (newEdgeTimeMs : ℚ) : Bool × EditorState :=
  match s.clips.findIdx? (fun c => c.id == clipId) with
  | none => (false, s)
  | some clipIndex =>
    match s.clips[clipIndex]? with
    | none => (false, s)
    | some clip =>
      let sourceDuration := sourceDurationOf s.mediaFiles clip
      let p := resizePlan sourceDuration clip edge newEdgeTimeMs
      if hasCollision s clip.trackId p.newTimelineStart p.newDuration (some clipId) then
        (false, s)
      else
        (true, updateDuration { s with
          clips := s.clips.set clipIndex
            { clip with
                timelineStart := p.newTimelineStart
                duration := p.newDuration
                sourceStart := some p.newSourceStart
                sourceEnd := some p.newSourceEnd } })

/-- Capitalised display name of a track type (`Video`, `Audio`, `Text`). -/
def trackTypeName : TrackType → String
  | TrackType.video => "Video"
  | TrackType.audio => "Audio"
  | TrackType.text => "Text"

/-- `typeOrder` in `sortTracks` (editor.ts line 365): video 0, audio 1, text 2. -/
def typeOrderVal : TrackType → Int
  | TrackType.video => 0
  | TrackType.audio => 1
  | TrackType.text => 2

/-- The total preorder realised by the `sortTracks` comparator
(editor.ts lines 366-371): `a` may precede `b` iff the comparator returns
a value `≤ 0`. -/
def trackLe (a b : Track) : Prop :=
  (a.type = b.type ∧ a.order ≤ b.order) ∨
  (a.type ≠ b.type ∧ typeOrderVal a.type < typeOrderVal b.type)

instance : DecidableRel trackLe := fun a b => by
  unfold trackLe
  infer_instance

/-- `sortTracks()` (editor.ts lines 363-374): stable-sort the tracks by
(type priority, order) and reassign `order := index`. -/
def sortTracks (s : EditorState) : EditorState :=
  let sorted := List.insertionSort trackLe s.tracks
  { s with tracks := sorted.enum.map fun p => { p.2 with order := (p.1 : Int) } }

/-- `renumberTracks()` (editor.ts lines 376-387): rename every track to
`"{Type} {i+1}"` where `i` is its index among same-type tracks, then
`sortTracks()`. -/
def renumberTracks (s : EditorState) : EditorState :=
  let ts := s.tracks
  let renamed := ts.enum.map fun p =>
    { p.2 with
        name := trackTypeName p.2.type ++ " " ++
          toString (((ts.take p.1).filter (fun u => decide (u.type = p.2.type))).length + 1) }
  sortTracks { s with tracks := renamed }

/-- `addTrack(type)` (editor.ts lines 307-328). `newId` stands for
`crypto.randomUUID()`. -/
def addTrack (s : EditorState) (type : TrackType) (newId : String) :
    Option Track × EditorState :=
  let existingCount := (s.tracks.filter (fun t => decide (t.type = type))).length
  if existingCount ≥ MAX_TRACKS_PER_TYPE then (none, s)
  else
    let newTrack : Track :=
      { id := newId
        type := type
        name := trackTypeName type ++ " " ++ toString (existingCount + 1)
        order := (s.tracks.length : Int)
        muted := false
        locked := false }
    (some newTrack, sortTracks { s with tracks := s.tracks ++ [newTrack] })

/-- `removeTrack(trackId)` (editor.ts lines 330-357). The first component is
`(success, hadClips)`. The JS guard `selectedClipId.value && ...` treats the
empty string as falsy. -/
def removeTrack (s : EditorState) (trackId : String) :
    (Bool × Bool) × EditorState :=
  match s.tracks.findIdx? (fun t => t.id == trackId) with
  | none => ((false, false), s)
  | some trackIndex =>
    let trackClips := s.clips.filter (fun c => c.trackId == trackId)
    let hadClips := decide (trackClips.length > 0)
    let s1 :=
      if hadClips then
        { s with
            clips := s.clips.filter (fun c => !(c.trackId == trackId))
            selectedClipId :=
              match s.selectedClipId with
              | some sel =>
                if sel != "" && trackClips.any (fun c => c.id == sel) then none
                else some sel
              | none => none }
      else s
    let s2 := { s1 with tracks := s1.tracks.eraseIdx trackIndex }
    ((true, hadClips), updateDuration (renumberTracks s2))

/-- `SNAP_THRESHOLD_PX = 10` (editor.ts line 428). -/
def SNAP_THRESHOLD_PX : ℚ := 10

/-- The fixed ascending interval ladder in `snapToMarker`
(editor.ts line 432): `[100, 250, 500, 1000, 2000, 5000, 10000, 30000,
60000, 300000]`. -/
def markerIntervals : List ℚ :=
  [100, 250, 500, 1000, 2000, 5000, 10000, 30000, 60000, 300000]

/-- The marker-interval selection loop in `snapToMarker`
(editor.ts lines 431-439): first ladder entry with
`interval * pixelsPerMs >= 80`, defaulting to `300000`. -/
def markerIntervalFor (pixelsPerMs : ℚ) : ℚ :=
  match markerIntervals.find? (fun i => decide (i * pixelsPerMs ≥ 80)) with
  | some i => i
  | none => 300000

/-- JS `Math.round`: round half toward positive infinity. -/
def jsRound (x : ℚ) : ℤ := ⌊x + 1/2⌋

/-- Result of `snapToMarker`: `{ time, snapped }`. -/
structure SnapResult where
  time : ℚ
  snapped : Bool
deriving DecidableEq, Repr

/-- `snapToMarker(timeMs, pixelsPerMs)` (editor.ts lines 427-448). -/
def snapToMarker (timeMs pixelsPerMs : ℚ) : SnapResult :=
  let snapThresholdMs := SNAP_THRESHOLD_PX / pixelsPerMs
  let markerInterval := markerIntervalFor pixelsPerMs
  let nearestMarker : ℚ := (jsRound (timeMs / markerInterval) : ℚ) * markerInterval
  let distance := |timeMs - nearestMarker|
  if distance ≤ snapThresholdMs then { time := nearestMarker, snapped := true }
  else { time := timeMs, snapped := false }

/-- A compositor layer (useCompositor.ts lines 14-24). The bound
`HTMLVideoElement`/`HTMLImageElement` is abstracted to a readiness bit
`ready`, which stands for the per-frame `readyState`/`naturalWidth` checks
in `render()` (lines 226-240) that make an unready layer be skipped. -/
structure CompositorLayer where
  clipId : String
  trackId : String
  trackOrder : Int
  opacity : ℚ
  visible : Bool
  ready : Bool
deriving DecidableEq, Repr

/-- The ordering used by `render()`'s sort (useCompositor.ts line 216):
`a` may precede `b` iff `a.trackOrder - b.trackOrder <= 0`. -/
def layerLe (a b : CompositorLayer) : Prop := a.trackOrder ≤ b.trackOrder

instance : DecidableRel layerLe := fun a b => by
  unfold layerLe
  infer_instance

instance : IsTotal CompositorLayer layerLe := ⟨fun x y => Int.le_total x.trackOrder y.trackOrder⟩

instance : IsTrans CompositorLayer layerLe := ⟨fun _ _ _ => Int.le_trans⟩

/-- The draw pass of `render()` (useCompositor.ts lines 203-258) as the
sequence of layers actually drawn, in drawing order: visible layers,
stable-sorted ascending by `trackOrder`, with unready layers skipped. -/
def renderDrawList (layers : List CompositorLayer) : List CompositorLayer :=
  (List.insertionSort layerLe (layers.filter (fun l => l.visible))).filter
    (fun l => l.ready)

/-- Kind of a registered media element (`HTMLVideoElement` vs
`HTMLAudioElement`), which `syncMediaElement` distinguishes via
`instanceof HTMLAudioElement`. -/
inductive ElementKind where
  | video
  | audio
deriving DecidableEq, Repr

/-- A registered media element, abstracted to the fields `syncMediaElement`
reads and writes: its kind, its playback position `currentTime` (seconds),
and its `paused` flag. -/
structure MediaElement where
  kind : ElementKind
  currentTime : ℚ
  paused : Bool
deriving DecidableEq, Repr

/-- An active clip as consumed by the preview engine (part_006 lines 8-16);
only the timing fields matter for synchronisation. -/
structure ActiveClip where
  clipId : String
  sourceId : String
  timelineStart : ℚ
  duration : ℚ
  sourceStart : ℚ
  sourceEnd : ℚ
deriving DecidableEq, Repr

/-- `getSourceTime(clip, timelineTimeMs)` (part_006 lines 52-55):
`sourceStart + (timelineTimeMs - clip.timelineStart)`. -/
def getSourceTime (clip : ActiveClip) (timelineTimeMs : ℚ) : ℚ :=
  clip.sourceStart + (timelineTimeMs - clip.timelineStart)

/-- The per-kind drift threshold of `syncMediaElement` (part_006 line 74):
`0.5` s for audio elements, `0.1` s for video elements. -/
def syncThresholdFor (isAudio : Bool) : ℚ :=
  if isAudio then 0.5 else 0.1

/-- `syncMediaElement(element, clip, timelineTimeMs, shouldPlay)`
(part_006 lines 60-95), returning the element's new state. A successful
`play()` is modelled as clearing `paused`. -/
def syncMediaElement (element : MediaElement) (clip : ActiveClip)
    (timelineTimeMs : ℚ) (shouldPlay : Bool) : MediaElement :=
  let sourceTimeSec := getSourceTime clip timelineTimeMs / 1000
  let isAudio := decide (element.kind = ElementKind.audio)
  let timeDiff := |element.currentTime - sourceTimeSec|
  let syncThreshold := syncThresholdFor isAudio
  let needsSeek := decide (timeDiff > syncThreshold)
  if shouldPlay then
    if element.paused then
      { element with currentTime := sourceTimeSec, paused := false }
    else if needsSeek then
      { element with currentTime := sourceTimeSec }
    else element
  else
    if ¬ element.paused then { element with paused := true } else element

/-- Half-open active-interval test: `t >= timelineStart && t <
timelineStart + duration` (spec section 4.3; part_006 lines 33-35). -/
def activeAt (c : Clip) (t : ℚ) : Bool :=
  decide (t ≥ c.timelineStart) && decide (t < c.timelineStart + c.duration)

/-- No-overlap invariant: for every track id and every time, at most one
clip of that track satisfies the active-interval test. -/
def NoOverlap (clips : List Clip) : Prop :=
  ∀ (trackId : String) (t : ℚ),
    (clips.filter (fun c => c.trackId == trackId && activeAt c t)).length ≤ 1

/-- Concrete fixture: the default first video track. -/
def videoTrack1 : Track :=
  { id := "video-1", type := TrackType.video, name := "Video 1", order := 0,
    muted := false, locked := false }

/-- Concrete fixture: a bounded 1000 ms video media file. -/
def mediaA : MediaFile := { id := "mA", type := MediaType.video, duration := 1000 }

/-- Concrete fixture: a clip of `mediaA` occupying `[0, 1000)` on `video-1`. -/
def clipA : Clip :=
  { id := "cA", type := TrackType.video, trackId := "video-1",
    timelineStart := 0, duration := 1000, sourceId := some "mA",
    sourceStart := some 0, sourceEnd := some 1000, volume := 1, muted := false }

/-- Concrete fixture: a consistent one-track, one-clip editor state. -/
def s0 : EditorState :=
  { tracks := [videoTrack1], clips := [clipA], mediaFiles := [mediaA],
    selectedClipId := none, currentTime := 0, duration := 1000, zoom := 1 }

/-- C1: starting from a state whose single track holds one clip on `[0,
1000)` (so the no-overlap invariant holds), the call `addClip("mA",
"video-1", -2000)` is not rejected, yet the resulting state violates the
invariant: the collision test ran at the requested start `-2000` while the
clip was committed at `max(0, -2000) = 0`, overlapping the existing clip.
This refutes the claimed preservation for negative requested starts. -/
theorem addClip_negative_start_breaks_no_overlap :
    NoOverlap s0.clips ∧
    (addClip s0 "mA" "video-1" (-2000) "cB").1.isSome = true ∧
    ¬ NoOverlap (addClip s0 "mA" "video-1" (-2000) "cB").2.clips := by
  refine ⟨?_, ?_, ?_⟩
  · intro tid t
    exact le_trans (List.length_filter_le _ _) (by simp [s0])
  · norm_num [addClip, s0, hasCollision, mediaA, clipA, videoTrack1, updateDuration,
      derivedDuration]
  · intro h
    have h2 := h "video-1" 0
    revert h2
    norm_num [addClip, s0, hasCollision, mediaA, clipA, videoTrack1, updateDuration,
      derivedDuration, activeAt]

/-- Every branch of `addClip` either returns the state unchanged or
reports success. -/
theorem addClip_cases (s : EditorState) (mid tid : String) (t : ℚ)
    (nid : String) :
    (addClip s mid tid t nid).2 = s ∨ (addClip s mid tid t nid).1 ≠ none := by
  unfold addClip
  repeat' ((try dsimp only); split)
  all_goals simp

/-- Every branch of `moveClip` either returns the state unchanged or
reports success. -/
theorem moveClip_cases (s : EditorState) (cid tid : String) (t : ℚ) :
    (moveClip s cid tid t).2 = s ∨ (moveClip s cid tid t).1 = true := by
  unfold moveClip
  repeat' ((try dsimp only); split)
  all_goals simp

/-- Every branch of `resizeClip` either returns the state unchanged or
reports success. -/
theorem resizeClip_cases (s : EditorState) (cid : String) (edge : Edge)
    (t : ℚ) :
    (resizeClip s cid edge t).2 = s ∨ (resizeClip s cid edge t).1 = true := by
  unfold resizeClip
  repeat' ((try dsimp only); split)
  all_goals simp

/-- Every branch of `addTrack` either returns the state unchanged or
reports success. -/
theorem addTrack_cases (s : EditorState) (ty : TrackType) (nid : String) :
    (addTrack s ty nid).2 = s ∨ (addTrack s ty nid).1 ≠ none := by
  unfold addTrack
  repeat' ((try dsimp only); split)
  all_goals simp

/-- Every branch of `removeTrack` either returns the state unchanged or
reports success. -/
theorem removeTrack_cases (s : EditorState) (tid : String) :
    (removeTrack s tid).2 = s ∨ (removeTrack s tid).1.1 = true := by
  unfold removeTrack
  repeat' ((try dsimp only); split)
  all_goals simp

/-- Rejecting `addClip` leaves the state unchanged. -/
theorem addClip_failure_pure (s : EditorState) (mid tid : String) (t : ℚ)
    (nid : String) (h : (addClip s mid tid t nid).1 = none) :
    (addClip s mid tid t nid).2 = s :=
  (addClip_cases s mid tid t nid).resolve_right fun hne => hne h

/-- Rejecting `moveClip` leaves the state unchanged. -/
theorem moveClip_failure_pure (s : EditorState) (cid tid : String) (t : ℚ)
    (h : (moveClip s cid tid t).1 = false) : (moveClip s cid tid t).2 = s :=
  (moveClip_cases s cid tid t).resolve_right fun ht =>
    absurd (h.symm.trans ht) (by decide)

/-- Rejecting `resizeClip` leaves the state unchanged. -/
theorem resizeClip_failure_pure (s : EditorState) (cid : String) (edge : Edge)
    (t : ℚ) (h : (resizeClip s cid edge t).1 = false) :
    (resizeClip s cid edge t).2 = s :=
  (resizeClip_cases s cid edge t).resolve_right fun ht =>
    absurd (h.symm.trans ht) (by decide)

/-- Rejecting `addTrack` leaves the state unchanged. -/
theorem addTrack_failure_pure (s : EditorState) (ty : TrackType) (nid : String)
    (h : (addTrack s ty nid).1 = none) : (addTrack s ty nid).2 = s :=
  (addTrack_cases s ty nid).resolve_right fun hne => hne h

/-- Rejecting `removeTrack` leaves the state unchanged. -/
theorem removeTrack_failure_pure (s : EditorState) (tid : String)
    (h : (removeTrack s tid).1.1 = false) : (removeTrack s tid).2 = s :=
  (removeTrack_cases s tid).resolve_right fun ht =>
    absurd (h.symm.trans ht) (by decide)

/-- C2: every store operation that can report failure (`addClip`,
`moveClip`, `resizeClip`, `addTrack`, `removeTrack`) returns, on every
failing input, a state equal to the pre-call state in all observable
fields (tracks, clips, media files, selection, current time, duration,
zoom): rejection is a pure no-op. -/
theorem rejecting_operations_are_pure_noops :
    (∀ s mid tid t nid, (addClip s mid tid t nid).1 = none →
      (addClip s mid tid t nid).2 = s) ∧
    (∀ s cid tid t, (moveClip s cid tid t).1 = false →
      (moveClip s cid tid t).2 = s) ∧
    (∀ s cid edge t, (resizeClip s cid edge t).1 = false →
      (resizeClip s cid edge t).2 = s) ∧
    (∀ s ty nid, (addTrack s ty nid).1 = none → (addTrack s ty nid).2 = s) ∧
    (∀ s tid, (removeTrack s tid).1.1 = false → (removeTrack s tid).2 = s) :=
  ⟨addClip_failure_pure, moveClip_failure_pure, resizeClip_failure_pure,
    addTrack_failure_pure, removeTrack_failure_pure⟩

/-- Witness for C2 at concrete inputs: on the one-clip fixture state,
adding a colliding clip, moving a missing clip, resizing a missing clip,
adding an eleventh video track to a ten-track state, and removing a
missing track all fail and leave the state untouched. -/
theorem rejecting_operations_are_pure_noops_witness :
    ((addClip s0 "mA" "video-1" 500 "cB").1 = none ∧
      (addClip s0 "mA" "video-1" 500 "cB").2 = s0) ∧
    ((moveClip s0 "nope" "video-1" 0).1 = false ∧
      (moveClip s0 "nope" "video-1" 0).2 = s0) ∧
    ((resizeClip s0 "nope" Edge.right 500).1 = false ∧
      (resizeClip s0 "nope" Edge.right 500).2 = s0) ∧
    ((removeTrack s0 "nope").1.1 = false ∧ (removeTrack s0 "nope").2 = s0) := by
  have h1 : (addClip s0 "mA" "video-1" 500 "cB").1 = none := by
    norm_num [addClip, s0, hasCollision, mediaA, clipA, videoTrack1]
  have h2 : (moveClip s0 "nope" "video-1" 0).1 = false := by
    simp +decide [moveClip, s0, clipA]
  have h3 : (resizeClip s0 "nope" Edge.right 500).1 = false := by
    simp +decide [resizeClip, s0, clipA]
  have h4 : (removeTrack s0 "nope").1.1 = false := by
    simp +decide [removeTrack, s0, videoTrack1]
  exact ⟨⟨h1, rejecting_operations_are_pure_noops.1 s0 "mA" "video-1" 500 "cB" h1⟩,
    ⟨h2, rejecting_operations_are_pure_noops.2.1 s0 "nope" "video-1" 0 h2⟩,
    ⟨h3, rejecting_operations_are_pure_noops.2.2.1 s0 "nope" Edge.right 500 h3⟩,
    ⟨h4, rejecting_operations_are_pure_noops.2.2.2.2 s0 "nope" h4⟩⟩

/-- The duration-derivation invariant of the spec: the stored `duration`
equals the derived value, and it is `0` exactly when the clip list is
empty. -/
def durationOk (s : EditorState) : Prop :=
  s.duration = derivedDuration s.clips ∧ (s.duration = 0 ↔ s.clips = [])

/-- Per-clip well-formedness maintained by the store: nonnegative
timeline start, duration at least `MIN_CLIP_DURATION`, nonnegative source
start, and for bounded sources the source window fits in the source. -/
def ClipWf (mediaFiles : List MediaFile) (c : Clip) : Prop :=
  0 ≤ c.timelineStart ∧ MIN_CLIP_DURATION ≤ c.duration ∧
  0 ≤ c.sourceStart.getD 0 ∧
  (sourceDurationOf mediaFiles c ≠ -1 →
    c.sourceStart.getD 0 + c.duration ≤ sourceDurationOf mediaFiles c)

/-- State well-formedness: every clip is well-formed and every media file
is unbounded (`-1`) or has positive duration. -/
def StateWf (s : EditorState) : Prop :=
  (∀ c ∈ s.clips, ClipWf s.mediaFiles c) ∧
  (∀ m ∈ s.mediaFiles, m.duration = -1 ∨ 0 < m.duration)

theorem MIN_CLIP_DURATION_pos : (0 : ℚ) < MIN_CLIP_DURATION := by
  norm_num [MIN_CLIP_DURATION]

theorem le_foldl_max (f : Clip → ℚ) (l : List Clip) (init : ℚ) :
    init ≤ l.foldl (fun acc c => max acc (f c)) init := by
  induction l generalizing init with
  | nil => exact le_refl _
  | cons x xs ih => exact le_trans (le_max_left _ _) (ih _)

theorem derivedDuration_pos (clips : List Clip)
    (h : ∀ c ∈ clips, 0 < c.timelineStart + c.duration) (hne : clips ≠ []) :
    0 < derivedDuration clips := by
  cases clips with
  | nil => exact absurd rfl hne
  | cons c cs =>
    unfold derivedDuration
    exact lt_of_lt_of_le (h c (by simp)) (le_foldl_max _ cs _)

theorem updateDuration_durationOk (s : EditorState)
    (h : ∀ c ∈ s.clips, 0 < c.timelineStart + c.duration) :
    durationOk (updateDuration s) := by
  refine ⟨rfl, ?_, ?_⟩
  · intro h0
    by_contra hne
    exact absurd h0 (ne_of_gt (derivedDuration_pos s.clips h hne))
  · intro he
    have hre : s.clips = [] := he
    show derivedDuration s.clips = 0
    rw [hre]
    rfl

/-- A well-formed clip has positive end time. -/
theorem ClipWf.end_pos {mediaFiles : List MediaFile} {c : Clip}
    (h : ClipWf mediaFiles c) : 0 < c.timelineStart + c.duration := by
  have h1 := h.1
  have h2 := h.2.1
  have := MIN_CLIP_DURATION_pos
  linarith

/-- The committed resize placement of a well-formed clip keeps the
timeline start nonnegative and the duration at least the minimum. -/
theorem resizePlan_bounds (sd : ℚ) (clip : Clip) (edge : Edge) (e : ℚ)
    (hstart : 0 ≤ clip.timelineStart)
    (hdur : MIN_CLIP_DURATION ≤ clip.duration)
    (hss : 0 ≤ clip.sourceStart.getD 0)
    (hbound : sd ≠ -1 → clip.sourceStart.getD 0 + clip.duration ≤ sd) :
    0 ≤ (resizePlan sd clip edge e).newTimelineStart ∧
    MIN_CLIP_DURATION ≤ (resizePlan sd clip edge e).newDuration := by
  have hmax : (0 : ℚ) ≤ max 0 e := le_max_left 0 e
  have hmin := MIN_CLIP_DURATION_pos
  unfold resizePlan
  cases edge with
  | right =>
    dsimp only
    refine ⟨hstart, ?_⟩
    split_ifs with hs
    · exact le_max_left _ _
    · refine le_min (le_max_left _ _) ?_
      have := hbound hs
      linarith
  | left =>
    dsimp only
    split_ifs with hu hneg hneg
    · have h1 : min (-(clip.timelineStart - max 0 e)) (clip.duration - MIN_CLIP_DURATION) ≤
          clip.duration - MIN_CLIP_DURATION := min_le_right _ _
      have h2 : (0 : ℚ) ≤ min (-(clip.timelineStart - max 0 e))
          (clip.duration - MIN_CLIP_DURATION) := le_min (by linarith) (by linarith)
      refine ⟨?_, ?_⟩ <;> dsimp only <;> linarith
    · push_neg at hneg
      refine ⟨?_, ?_⟩ <;> dsimp only <;> linarith
    · have h1 : min (-(clip.timelineStart - max 0 e)) (clip.duration - MIN_CLIP_DURATION) ≤
          clip.duration - MIN_CLIP_DURATION := min_le_right _ _
      have h2 : (0 : ℚ) ≤ min (-(clip.timelineStart - max 0 e))
          (clip.duration - MIN_CLIP_DURATION) := le_min (by linarith) (by linarith)
      refine ⟨?_, ?_⟩ <;> dsimp only <;> linarith
    · push_neg at hneg
      have h1 : min (clip.timelineStart - max 0 e) (clip.sourceStart.getD 0) ≤
          clip.timelineStart - max 0 e := min_le_left _ _
      have h2 : (0 : ℚ) ≤ min (clip.timelineStart - max 0 e) (clip.sourceStart.getD 0) :=
        le_min (by linarith) hss
      refine ⟨?_, ?_⟩ <;> dsimp only <;> linarith

theorem addClip_durationOk (s : EditorState) (hwf : StateWf s)
    (hdur : durationOk s) (mid tid : String) (t : ℚ) (nid : String) :
    durationOk (addClip s mid tid t nid).2 := by
  have hmaxt : (0 : ℚ) ≤ max 0 t := le_max_left 0 t
  unfold addClip
  rcases hmf : s.mediaFiles.find? (fun m => m.id == mid) with _ | mf <;>
      (try rw [hmf]) <;> dsimp only
  · exact hdur
  rcases htr : s.tracks.find? (fun t2 => t2.id == tid) with _ | tr <;>
      (try rw [htr]) <;> dsimp only
  · exact hdur
  cases hmt : mf.type <;> dsimp only <;> split_ifs
  all_goals try exact hdur
  all_goals
    apply updateDuration_durationOk
    intro c hc
    rcases List.mem_append.mp hc with h | h
    · exact (hwf.1 c h).end_pos
    · rw [List.mem_singleton.mp h]
      dsimp only
      first
      | (have h5 : (0 : ℚ) < DEFAULT_IMAGE_DURATION := by norm_num [DEFAULT_IMAGE_DURATION]
         linarith)
      | (rcases hwf.2 mf (List.mem_of_find?_eq_some hmf) with hm1 | hm1
         · exact absurd hm1 (by assumption)
         · linarith)


theorem moveClip_durationOk (s : EditorState) (hwf : StateWf s)
    (hdur : durationOk s) (cid tid : String) (t : ℚ) :
    durationOk (moveClip s cid tid t).2 := by
  unfold moveClip
  rcases hi : s.clips.findIdx? (fun c => c.id == cid) with _ | i <;>
      (try rw [hi]) <;> dsimp only
  · exact hdur
  rcases hc : s.clips[i]? with _ | clip <;> (try rw [hc]) <;> dsimp only
  · exact hdur
  rcases ht : s.tracks.find? (fun t2 => t2.id == tid) with _ | tr <;>
      (try rw [ht]) <;> dsimp only
  · exact hdur
  split_ifs with h1 h2
  all_goals try exact hdur
  apply updateDuration_durationOk
  intro c hcm
  rcases List.mem_or_eq_of_mem_set hcm with h | h
  · exact (hwf.1 c h).end_pos
  · subst h
    dsimp only
    have hcw := hwf.1 clip (List.getElem?_mem hc)
    have hd := hcw.2.1
    have hmin := MIN_CLIP_DURATION_pos
    have hmaxt : (0 : ℚ) ≤ max 0 t := le_max_left 0 t
    linarith

theorem removeClip_durationOk (s : EditorState) (hwf : StateWf s)
    (hdur : durationOk s) (cid : String) :
    durationOk (removeClip s cid) := by
  unfold removeClip
  rcases hi : s.clips.findIdx? (fun c => c.id == cid) with _ | i <;>
      (try rw [hi]) <;> dsimp only
  · exact hdur
  split_ifs with h1 <;>
    · apply updateDuration_durationOk
      intro c hcm
      exact (hwf.1 c (List.eraseIdx_subset _ _ hcm)).end_pos

theorem resizeClip_durationOk (s : EditorState) (hwf : StateWf s)
    (hdur : durationOk s) (cid : String) (edge : Edge) (t : ℚ) :
    durationOk (resizeClip s cid edge t).2 := by
  unfold resizeClip
  rcases hi : s.clips.findIdx? (fun c => c.id == cid) with _ | i <;>
      (try rw [hi]) <;> dsimp only
  · exact hdur
  rcases hc : s.clips[i]? with _ | clip <;> (try rw [hc]) <;> dsimp only
  · exact hdur
  split_ifs with h1
  · exact hdur
  · apply updateDuration_durationOk
    intro c hcm
    rcases List.mem_or_eq_of_mem_set hcm with h | h
    · exact (hwf.1 c h).end_pos
    · subst h
      dsimp only
      have hcw := hwf.1 clip (List.getElem?_mem hc)
      have hb := resizePlan_bounds (sourceDurationOf s.mediaFiles clip) clip edge t
        hcw.1 hcw.2.1 hcw.2.2.1 hcw.2.2.2
      have hmin := MIN_CLIP_DURATION_pos
      linarith [hb.1, hb.2]

theorem removeTrack_durationOk (s : EditorState) (hwf : StateWf s)
    (hdur : durationOk s) (tid : String) :
    durationOk (removeTrack s tid).2 := by
  unfold removeTrack
  rcases hi : s.tracks.findIdx? (fun t2 => t2.id == tid) with _ | i <;>
      (try rw [hi]) <;> dsimp only
  · exact hdur
  split_ifs with h1
  · apply updateDuration_durationOk
    intro c hcm
    have hcm2 : c ∈ s.clips.filter (fun c2 => !(c2.trackId == tid)) := hcm
    exact (hwf.1 c (List.mem_of_mem_filter hcm2)).end_pos
  · apply updateDuration_durationOk
    intro c hcm
    have hcm2 : c ∈ s.clips := hcm
    exact (hwf.1 c hcm2).end_pos

/-- C3: starting from a well-formed state whose stored duration satisfies
the derivation invariant, every structural mutation (`addClip`, `moveClip`,
`removeClip`, `resizeClip`, `removeTrack`) returns a state in which the
duration again equals `0` for an empty clip list and the maximum of
`timelineStart + duration` over all clips otherwise, with `duration = 0`
iff the clip list is empty. -/
theorem duration_recomputed_after_mutations (s : EditorState) (hwf : StateWf s)
    (hdur : durationOk s) :
    (∀ mid tid t nid, durationOk (addClip s mid tid t nid).2) ∧
    (∀ cid tid t, durationOk (moveClip s cid tid t).2) ∧
    (∀ cid, durationOk (removeClip s cid)) ∧
    (∀ cid edge t, durationOk (resizeClip s cid edge t).2) ∧
    (∀ tid, durationOk (removeTrack s tid).2) :=
  ⟨fun mid tid t nid => addClip_durationOk s hwf hdur mid tid t nid,
   fun cid tid t => moveClip_durationOk s hwf hdur cid tid t,
   fun cid => removeClip_durationOk s hwf hdur cid,
   fun cid edge t => resizeClip_durationOk s hwf hdur cid edge t,
   fun tid => removeTrack_durationOk s hwf hdur tid⟩

/-- Witness for C3 on the one-clip fixture: the hypotheses hold and
removing the clip leaves a correctly derived (zero) duration. -/
theorem duration_recomputed_after_mutations_witness :
    StateWf s0 ∧ durationOk s0 ∧ durationOk (removeClip s0 "cA") := by
  have hwf : StateWf s0 := by
    refine ⟨?_, ?_⟩
    · intro c hc
      have hce : c = clipA := by simpa [s0] using hc
      subst hce
      norm_num [ClipWf, clipA, sourceDurationOf, mediaA, s0, MIN_CLIP_DURATION]
    · intro m hm
      have hme : m = mediaA := by simpa [s0] using hm
      subst hme
      right
      norm_num [mediaA]
  have hdur : durationOk s0 := by
    constructor
    · norm_num [s0, derivedDuration, clipA]
    · norm_num [s0]
  exact ⟨hwf, hdur,
    (duration_recomputed_after_mutations s0 hwf hdur).2.2.1 "cA"⟩

/-- On success, `resizeClip` commits exactly the planned placement into
position `i` of the clip list. -/
theorem resizeClip_commit (s : EditorState) (cid : String) (edge : Edge)
    (t : ℚ) (i : ℕ) (clip : Clip)
    (hi : s.clips.findIdx? (fun c => c.id == cid) = some i)
    (hc : s.clips[i]? = some clip)
    (hsucc : (resizeClip s cid edge t).1 = true) :
    (resizeClip s cid edge t).2.clips[i]? = some
      { clip with
          timelineStart :=
            (resizePlan (sourceDurationOf s.mediaFiles clip) clip edge t).newTimelineStart
          duration :=
            (resizePlan (sourceDurationOf s.mediaFiles clip) clip edge t).newDuration
          sourceStart :=
            some (resizePlan (sourceDurationOf s.mediaFiles clip) clip edge t).newSourceStart
          sourceEnd :=
            some (resizePlan (sourceDurationOf s.mediaFiles clip) clip edge t).newSourceEnd } := by
  have hlen : i < s.clips.length := (List.getElem?_eq_some.mp hc).1
  unfold resizeClip at hsucc ⊢
  rw [hi] at hsucc ⊢
  dsimp only at hsucc ⊢
  rw [hc] at hsucc ⊢
  dsimp only at hsucc ⊢
  split_ifs at hsucc ⊢ with h1
  exact List.getElem?_set_self (by simpa using hlen)

/-- Right-edge resize of a bounded clip: the committed source end never
exceeds the source duration, and a request past the limit clamps exactly
to it. -/
theorem resizePlan_right_bounded (sd : ℚ) (clip : Clip) (t : ℚ)
    (hsd : sd ≠ -1) :
    (resizePlan sd clip Edge.right t).newSourceEnd ≤ sd ∧
    (sd - clip.sourceStart.getD 0 < t - clip.timelineStart →
      (resizePlan sd clip Edge.right t).newSourceEnd = sd) := by
  unfold resizePlan
  dsimp only
  rw [if_pos hsd]
  constructor
  · have hmr := min_le_right (max MIN_CLIP_DURATION (t - clip.timelineStart))
      (sd - clip.sourceStart.getD 0)
    linarith
  · intro hlt
    have hmx : sd - clip.sourceStart.getD 0 ≤
        max MIN_CLIP_DURATION (t - clip.timelineStart) :=
      le_trans (le_of_lt hlt) (le_max_right _ _)
    rw [min_eq_right hmx]
    ring

/-- Left-edge resize of a bounded clip that requests more left extension
than the available source head clamps the source start exactly to `0`. -/
theorem resizePlan_left_bounded_clamp (sd : ℚ) (clip : Clip) (tl : ℚ)
    (hsd : sd ≠ -1) (hss : 0 ≤ clip.sourceStart.getD 0)
    (hgt : clip.sourceStart.getD 0 < clip.timelineStart - max 0 tl) :
    (resizePlan sd clip Edge.left tl).newSourceStart = 0 := by
  unfold resizePlan
  dsimp only
  rw [if_pos hsd]
  rw [if_neg (not_lt.mpr (le_of_lt (lt_of_le_of_lt hss hgt)))]
  dsimp only
  rw [min_eq_right (le_of_lt hgt)]
  ring

/-- Left-edge resize of an unbounded (image) clip always commits
`sourceStart = 0` and `sourceEnd = newDuration`. -/
theorem resizePlan_left_unbounded (sd : ℚ) (clip : Clip) (tl : ℚ)
    (hsd : sd = -1) :
    (resizePlan sd clip Edge.left tl).newSourceStart = 0 ∧
    (resizePlan sd clip Edge.left tl).newSourceEnd =
      (resizePlan sd clip Edge.left tl).newDuration := by
  unfold resizePlan
  dsimp only
  rw [if_neg (not_not_intro hsd)]
  split_ifs <;> exact ⟨rfl, rfl⟩

/-- C4: for a clip backed by a bounded media source, a successful
right-edge resize never pushes `sourceEnd` past `sourceDuration` and a
request beyond `timelineStart + (sourceDuration - sourceStart)` clamps the
committed clip so that `sourceEnd = sourceDuration` exactly; a successful
left-edge resize that requests more extension than `sourceStart` allows
clamps the committed `sourceStart` to exactly `0`. -/
theorem resizeClip_bounded_clamps (s : EditorState) (cid : String) (t tl : ℚ)
    (i : ℕ) (clip : Clip)
    (hi : s.clips.findIdx? (fun c => c.id == cid) = some i)
    (hc : s.clips[i]? = some clip)
    (hsd : sourceDurationOf s.mediaFiles clip ≠ -1)
    (hss : 0 ≤ clip.sourceStart.getD 0) :
    ((resizeClip s cid Edge.right t).1 = true →
      ∃ c', (resizeClip s cid Edge.right t).2.clips[i]? = some c' ∧
        c'.sourceEnd.getD 0 ≤ sourceDurationOf s.mediaFiles clip ∧
        (sourceDurationOf s.mediaFiles clip - clip.sourceStart.getD 0 <
            t - clip.timelineStart →
          c'.sourceEnd = some (sourceDurationOf s.mediaFiles clip))) ∧
    ((resizeClip s cid Edge.left tl).1 = true →
      clip.sourceStart.getD 0 < clip.timelineStart - max 0 tl →
      ∃ c', (resizeClip s cid Edge.left tl).2.clips[i]? = some c' ∧
        c'.sourceStart = some 0) := by
  constructor
  · intro hsucc
    refine ⟨_, resizeClip_commit s cid Edge.right t i clip hi hc hsucc, ?_, ?_⟩
    · exact (resizePlan_right_bounded (sourceDurationOf s.mediaFiles clip) clip t hsd).1
    · intro hlt
      exact congrArg some
        ((resizePlan_right_bounded (sourceDurationOf s.mediaFiles clip) clip t hsd).2 hlt)
  · intro hsucc hgt
    refine ⟨_, resizeClip_commit s cid Edge.left tl i clip hi hc hsucc, ?_⟩
    exact congrArg some
      (resizePlan_left_bounded_clamp (sourceDurationOf s.mediaFiles clip) clip tl hsd hss hgt)

/-- Witness for C4 on the fixture: the bounded clip `[0,1000)` with
`sourceStart = 0` and `sourceDuration = 1000`, right-resized to edge
2500 ms, succeeds and commits `sourceEnd = 1000 = sourceDuration`. -/
theorem resizeClip_bounded_clamps_witness :
    (resizeClip s0 "cA" Edge.right 2500).1 = true ∧
    ∃ c', (resizeClip s0 "cA" Edge.right 2500).2.clips[0]? = some c' ∧
      c'.sourceEnd.getD 0 ≤ sourceDurationOf s0.mediaFiles clipA ∧
      (sourceDurationOf s0.mediaFiles clipA - clipA.sourceStart.getD 0 <
          2500 - clipA.timelineStart →
        c'.sourceEnd = some (sourceDurationOf s0.mediaFiles clipA)) := by
  have hi : s0.clips.findIdx? (fun c => c.id == "cA") = some 0 := by
    simp +decide [s0, clipA]
  have hc : s0.clips[0]? = some clipA := by simp [s0]
  have hsd : sourceDurationOf s0.mediaFiles clipA ≠ -1 := by
    norm_num [sourceDurationOf, s0, clipA, mediaA]
  have hss : (0 : ℚ) ≤ clipA.sourceStart.getD 0 := by norm_num [clipA]
  have hne : ¬ ("cA" : String) = "" := by decide
  have hsucc : (resizeClip s0 "cA" Edge.right 2500).1 = true := by
    norm_num [resizeClip, resizePlan, sourceDurationOf, hasCollision, s0, clipA,
      mediaA, MIN_CLIP_DURATION, hne]
  exact ⟨hsucc,
    (resizeClip_bounded_clamps s0 "cA" 2500 0 0 clipA hi hc hsd hss).1 hsucc⟩

/-- C10: for a clip whose media source is unbounded (`sourceDuration =
-1`), every successful left-edge resize commits `sourceStart = 0` and
`sourceEnd = duration` of the committed clip, whatever the previous
`sourceStart` was. -/
theorem resizeClip_left_unbounded_resets_source (s : EditorState)
    (cid : String) (tl : ℚ) (i : ℕ) (clip : Clip)
    (hi : s.clips.findIdx? (fun c => c.id == cid) = some i)
    (hc : s.clips[i]? = some clip)
    (hsd : sourceDurationOf s.mediaFiles clip = -1)
    (hsucc : (resizeClip s cid Edge.left tl).1 = true) :
    ∃ c', (resizeClip s cid Edge.left tl).2.clips[i]? = some c' ∧
      c'.sourceStart = some 0 ∧ c'.sourceEnd = some c'.duration := by
  refine ⟨_, resizeClip_commit s cid Edge.left tl i clip hi hc hsucc, ?_, ?_⟩
  · exact congrArg some
      (resizePlan_left_unbounded (sourceDurationOf s.mediaFiles clip) clip tl hsd).1
  · exact congrArg some
      (resizePlan_left_unbounded (sourceDurationOf s.mediaFiles clip) clip tl hsd).2

/-- Concrete fixture: an unbounded (image) media file. -/
def mediaImg : MediaFile := { id := "mI", type := MediaType.image, duration := -1 }

/-- Concrete fixture: an image clip with a nonzero stale `sourceStart`. -/
def clipImg : Clip :=
  { id := "cI", type := TrackType.video, trackId := "video-1",
    timelineStart := 500, duration := 5000, sourceId := some "mI",
    sourceStart := some 250, sourceEnd := some 5250, volume := 1, muted := false }

/-- Concrete fixture: a one-image-clip editor state. -/
def s1 : EditorState :=
  { tracks := [videoTrack1], clips := [clipImg], mediaFiles := [mediaImg],
    selectedClipId := none, currentTime := 0, duration := 5500, zoom := 1 }

/-- Witness for C10: left-resizing the image clip to edge 200 ms succeeds
and the committed clip has `sourceStart = 0` and `sourceEnd = duration`,
although `sourceStart` was 250 before the call. -/
theorem resizeClip_left_unbounded_resets_source_witness :
    (resizeClip s1 "cI" Edge.left 200).1 = true ∧
    ∃ c', (resizeClip s1 "cI" Edge.left 200).2.clips[0]? = some c' ∧
      c'.sourceStart = some 0 ∧ c'.sourceEnd = some c'.duration := by
  have hi : s1.clips.findIdx? (fun c => c.id == "cI") = some 0 := by
    simp +decide [s1, clipImg]
  have hc : s1.clips[0]? = some clipImg := by simp [s1]
  have hsd : sourceDurationOf s1.mediaFiles clipImg = -1 := by
    norm_num [sourceDurationOf, s1, clipImg, mediaImg]
  have hne : ¬ ("cI" : String) = "" := by decide
  have hsucc : (resizeClip s1 "cI" Edge.left 200).1 = true := by
    norm_num [resizeClip, resizePlan, sourceDurationOf, hasCollision, s1, clipImg,
      mediaImg, MIN_CLIP_DURATION, hne]
  exact ⟨hsucc,
    resizeClip_left_unbounded_resets_source s1 "cI" 200 0 clipImg hi hc hsd hsucc⟩

/-- On a sorted list, `find?` returns a minimal satisfying element. -/
theorem find?_eq_some_min_of_sorted (l : List ℚ) (P : ℚ → Bool)
    (hsort : l.Pairwise (· ≤ ·)) (r : ℚ) (hr : l.find? P = some r) :
    r ∈ l ∧ P r = true ∧ ∀ j ∈ l, P j = true → r ≤ j := by
  induction l with
  | nil => simp at hr
  | cons x xs ih =>
    rcases List.pairwise_cons.mp hsort with ⟨hx, hxs⟩
    by_cases hPx : P x
    · rw [List.find?_cons_of_pos _ hPx] at hr
      injection hr with hr
      subst hr
      refine ⟨List.mem_cons_self _ _, hPx, ?_⟩
      intro j hj _
      rcases List.mem_cons.mp hj with h | h
      · subst h
        exact le_refl _
      · exact hx j h
    · rw [List.find?_cons_of_neg _ hPx] at hr
      obtain ⟨h1, h2, h3⟩ := ih hxs hr
      refine ⟨List.mem_cons_of_mem _ h1, h2, ?_⟩
      intro j hj hPj
      rcases List.mem_cons.mp hj with h | h
      · subst h
        exact absurd hPj hPx
      · exact h3 j h hPj

theorem markerIntervals_sorted : markerIntervals.Pairwise (· ≤ ·) := by
  decide

theorem markerIntervalFor_pos (p : ℚ) : 0 < markerIntervalFor p := by
  unfold markerIntervalFor
  rcases hf : markerIntervals.find? (fun i => decide (i * p ≥ 80)) with _ | i <;>
      (try rw [hf]) <;> (try dsimp only)
  · norm_num
  · exact (by decide : ∀ x ∈ markerIntervals, (0 : ℚ) < x) i
      (List.mem_of_find?_eq_some hf)

/-- Marker ladder as the spec words it, including a 600000 ms entry
(refinement model built from the spec text, to compare with
`markerIntervals` from the source). -/
def specMarkerIntervals : List ℚ :=
  [100, 250, 500, 1000, 2000, 5000, 10000, 30000, 60000, 300000, 600000]

/-- Marker-interval selection as the spec words it: smallest qualifying
element of the spec ladder, and the ladder's largest element 600000 when
none qualifies (refinement model built from the spec text). -/
def specMarkerInterval (pixelsPerMs : ℚ) : ℚ :=
  match specMarkerIntervals.find? (fun i => decide (i * pixelsPerMs ≥ 80)) with
  | some i => i
  | none => 600000

/-- C5 counterexample: at `pixelsPerMs = 1/5000` (where `300000 * p = 60 <
80` but `600000 * p = 120 ≥ 80`) the spec's ladder selects 600000, while
`snapToMarker`'s selection loop, whose ladder stops at 300000, uses
300000 — so the claimed ladder and fallback are wrong for the code. -/
theorem markerInterval_ladder_counterexample :
    markerIntervalFor (1 / 5000) = 300000 ∧
    specMarkerInterval (1 / 5000) = 600000 ∧
    ¬ markerIntervalFor (1 / 5000) = specMarkerInterval (1 / 5000) := by
  refine ⟨?_, ?_, ?_⟩ <;>
    norm_num [markerIntervalFor, specMarkerInterval, markerIntervals,
      specMarkerIntervals]

/-- C5 amended: for every `pixelsPerMs > 0`, the interval used by
`snapToMarker` is the smallest element of the ladder `{100, 250, 500,
1000, 2000, 5000, 10000, 30000, 60000, 300000}` ms (no 600000 entry) with
`interval * pixelsPerMs ≥ 80`, and when no element qualifies it is the
ladder's largest element, 300000 ms. -/
theorem markerInterval_selection (p : ℚ) (hp : 0 < p) :
    ((∃ i ∈ markerIntervals, (80 : ℚ) ≤ i * p) →
      markerIntervalFor p ∈ markerIntervals ∧ (80 : ℚ) ≤ markerIntervalFor p * p ∧
      ∀ j ∈ markerIntervals, (80 : ℚ) ≤ j * p → markerIntervalFor p ≤ j) ∧
    ((∀ i ∈ markerIntervals, i * p < 80) → markerIntervalFor p = 300000) := by
  clear hp
  constructor
  · rintro ⟨i0, hi0, hq⟩
    rcases hf : markerIntervals.find? (fun i => decide (i * p ≥ 80)) with _ | r
    · rw [List.find?_eq_none] at hf
      exact absurd (by simpa using hq) (by simpa using hf i0 hi0)
    · obtain ⟨h1, h2, h3⟩ := find?_eq_some_min_of_sorted _ _ markerIntervals_sorted r hf
      have he : markerIntervalFor p = r := by
        unfold markerIntervalFor
        rw [hf]
      rw [he]
      refine ⟨h1, by simpa using h2, ?_⟩
      intro j hj hjq
      exact h3 j hj (by simpa using hjq)
  · intro hall
    have hf : markerIntervals.find? (fun i => decide (i * p ≥ 80)) = none := by
      rw [List.find?_eq_none]
      intro x hx
      simp only [decide_eq_true_eq, ge_iff_le]
      exact not_le.mpr (hall x hx)
    unfold markerIntervalFor
    rw [hf]

/-- Witness for the amended C5 at `pixelsPerMs = 1`: the ladder element
100 qualifies and the selected interval is minimal among qualifiers. -/
theorem markerInterval_selection_witness :
    (0 : ℚ) < 1 ∧ (∃ i ∈ markerIntervals, (80 : ℚ) ≤ i * 1) ∧
    markerIntervalFor 1 ∈ markerIntervals ∧ (80 : ℚ) ≤ markerIntervalFor 1 * 1 ∧
    ∀ j ∈ markerIntervals, (80 : ℚ) ≤ j * 1 → markerIntervalFor 1 ≤ j := by
  have hp : (0 : ℚ) < 1 := by norm_num
  have hex : ∃ i ∈ markerIntervals, (80 : ℚ) ≤ i * 1 := by
    refine ⟨100, ?_, ?_⟩ <;> norm_num [markerIntervals]
  have h := (markerInterval_selection 1 hp).1 hex
  exact ⟨hp, hex, h.1, h.2.1, h.2.2⟩

/-- A multiple of the selected marker interval is a fixed point of
`snapToMarker`, reported as snapped. -/
theorem snapToMarker_fixed (x p : ℚ)
    (hx : ∃ k : ℤ, x = (k : ℚ) * markerIntervalFor p) (hp : 0 < p) :
    snapToMarker x p = ⟨x, true⟩ := by
  obtain ⟨k, hk⟩ := hx
  have hmi : 0 < markerIntervalFor p := markerIntervalFor_pos p
  have hth : 0 ≤ SNAP_THRESHOLD_PX / p := by
    apply div_nonneg _ (le_of_lt hp)
    norm_num [SNAP_THRESHOLD_PX]
  unfold snapToMarker
  dsimp only
  have hdiv : x / markerIntervalFor p = (k : ℚ) := by
    rw [hk, mul_div_assoc, div_self (ne_of_gt hmi), mul_one]
  have hround : jsRound ((k : ℚ)) = k := by
    unfold jsRound
    rw [add_comm, Int.floor_add_int]
    norm_num
  rw [hdiv, hround, ← hk, sub_self, abs_zero, if_pos hth]

/-- C6: snapping is idempotent on the time component: for every time and
every positive `pixelsPerMs`, re-snapping the snapped time returns it
unchanged. -/
theorem snapToMarker_idempotent (t p : ℚ) (hp : 0 < p) :
    (snapToMarker (snapToMarker t p).time p).time = (snapToMarker t p).time := by
  by_cases h : |t - (jsRound (t / markerIntervalFor p) : ℚ) * markerIntervalFor p| ≤
      SNAP_THRESHOLD_PX / p
  · have h1 : snapToMarker t p =
        ⟨(jsRound (t / markerIntervalFor p) : ℚ) * markerIntervalFor p, true⟩ := by
      unfold snapToMarker
      dsimp only
      rw [if_pos h]
    rw [h1]
    show (snapToMarker ((jsRound (t / markerIntervalFor p) : ℚ) * markerIntervalFor p) p).time = _
    rw [snapToMarker_fixed _ p ⟨_, rfl⟩ hp]
  · have h1 : snapToMarker t p = ⟨t, false⟩ := by
      unfold snapToMarker
      dsimp only
      rw [if_neg h]
    rw [h1]
    show (snapToMarker t p).time = t
    rw [h1]

/-- Witness for C6 at `t = 30`, `pixelsPerMs = 1`. -/
theorem snapToMarker_idempotent_witness :
    (0 : ℚ) < 1 ∧
    (snapToMarker (snapToMarker 30 1).time 1).time = (snapToMarker 30 1).time :=
  ⟨by norm_num, snapToMarker_idempotent 30 1 (by norm_num)⟩

/-- In a list pairwise-sorted by `layerLe`, every element is below the
last one. -/
theorem pairwise_le_last (l : List CompositorLayer)
    (h : List.Pairwise layerLe l) (lst : CompositorLayer)
    (hl : l.getLast? = some lst) : ∀ a ∈ l, a.trackOrder ≤ lst.trackOrder := by
  induction l with
  | nil => simp at hl
  | cons x xs ih =>
    rcases List.pairwise_cons.mp h with ⟨hx, hxs⟩
    cases xs with
    | nil =>
      simp only [List.getLast?_singleton, Option.some.injEq] at hl
      subst hl
      intro a ha
      simp only [List.mem_singleton] at ha
      subst ha
      exact le_refl _
    | cons y ys =>
      rw [List.getLast?_cons_cons] at hl
      intro a ha
      rcases List.mem_cons.mp ha with h1 | h1
      · subst h1
        have hlst : lst ∈ y :: ys := List.mem_of_mem_getLast? hl
        exact hx lst hlst
      · exact ih hxs hl a h1

/-- Concrete fixture: a visible, ready layer on the track with order 0. -/
def layer0 : CompositorLayer :=
  { clipId := "c0", trackId := "t0", trackOrder := 0, opacity := 1,
    visible := true, ready := true }

/-- Concrete fixture: a visible, ready layer on the track with order 1. -/
def layer1 : CompositorLayer :=
  { clipId := "c1", trackId := "t1", trackOrder := 1, opacity := 1,
    visible := true, ready := true }

/-- C7 counterexample: with two visible, ready layers of track orders 0
and 1, the draw pass draws order 0 first and order 1 last: the frontmost
(last drawn) layer is the one with the LARGEST track order, so the track
with the smallest order is not frontmost as claimed. -/
theorem render_order_counterexample :
    renderDrawList [layer0, layer1] = [layer0, layer1] ∧
    (renderDrawList [layer0, layer1]).getLast? = some layer1 ∧
    layer0.trackOrder = 0 ∧ layer1.trackOrder = 1 ∧
    ¬ (renderDrawList [layer0, layer1]).getLast? = some layer0 := by
  refine ⟨by decide, by decide, rfl, rfl, by decide⟩

/-- C7 amended: the compositor draw pass orders visible, ready layers
ascending by the owning track's order and draws them in that order, so
the layer drawn last (frontmost) has the largest track order; tracks with
smaller order (video tracks first after `sortTracks`) render farther
back. -/
theorem render_draw_order (layers : List CompositorLayer) :
    List.Pairwise (fun a b => a.trackOrder ≤ b.trackOrder)
      (renderDrawList layers) ∧
    ∀ lst, (renderDrawList layers).getLast? = some lst →
      ∀ a ∈ renderDrawList layers, a.trackOrder ≤ lst.trackOrder := by
  have hs : List.Pairwise layerLe (renderDrawList layers) := by
    unfold renderDrawList
    exact (List.sorted_insertionSort layerLe _).filter _
  exact ⟨hs, fun lst hl => pairwise_le_last _ hs lst hl⟩

/-- Witness for the amended C7 on the two-layer fixture. -/
theorem render_draw_order_witness :
    (renderDrawList [layer0, layer1]).getLast? = some layer1 ∧
    ∀ a ∈ renderDrawList [layer0, layer1], a.trackOrder ≤ layer1.trackOrder :=
  ⟨by decide, (render_draw_order [layer0, layer1]).2 layer1 (by decide)⟩

theorem updateDuration_clips (s : EditorState) : (updateDuration s).clips = s.clips := rfl

theorem updateDuration_sel (s : EditorState) :
    (updateDuration s).selectedClipId = s.selectedClipId := rfl

theorem updateDuration_tracks (s : EditorState) :
    (updateDuration s).tracks = s.tracks := rfl

theorem sortTracks_clips (s : EditorState) : (sortTracks s).clips = s.clips := rfl

theorem sortTracks_sel (s : EditorState) :
    (sortTracks s).selectedClipId = s.selectedClipId := rfl

theorem renumberTracks_clips (s : EditorState) :
    (renumberTracks s).clips = s.clips := rfl

theorem renumberTracks_sel (s : EditorState) :
    (renumberTracks s).selectedClipId = s.selectedClipId := rfl

/-- Mapping `Track.id` over an enum-and-update pass that preserves ids
gives the original id list. -/
theorem enum_map_update_map_id (l : List Track) (g : ℕ × Track → Track)
    (hg : ∀ p, (g p).id = p.2.id) :
    (l.enum.map g).map Track.id = l.map Track.id := by
  rw [List.map_map]
  have hfun : (Track.id ∘ g) = (Track.id ∘ Prod.snd) := funext fun p => hg p
  rw [hfun, ← List.map_map, List.enum_map_snd]

/-- `sortTracks` permutes the tracks (and their ids). -/
theorem sortTracks_map_id (s : EditorState) :
    ((sortTracks s).tracks.map Track.id).Perm (s.tracks.map Track.id) := by
  unfold sortTracks
  dsimp only
  rw [enum_map_update_map_id _ (fun p => { p.2 with order := (p.1 : Int) })
    (fun p => rfl)]
  exact (List.perm_insertionSort trackLe s.tracks).map Track.id

/-- `renumberTracks` permutes the tracks (and their ids). -/
theorem renumberTracks_map_id (s : EditorState) :
    ((renumberTracks s).tracks.map Track.id).Perm (s.tracks.map Track.id) := by
  unfold renumberTracks
  dsimp only
  refine (sortTracks_map_id _).trans ?_
  dsimp only
  rw [enum_map_update_map_id s.tracks
    (fun p => { p.2 with
      name := trackTypeName p.2.type ++ " " ++
        toString (((s.tracks.take p.1).filter
          (fun u => decide (u.type = p.2.type))).length + 1) })
    (fun p => rfl)]

/-- C8: `removeTrack` on an existing track returns `(success := true,
hadClips := b)` with `b` true iff the track held a clip, removes exactly
the clips of that track, removes the indexed track (keeping the other
track ids as a permutation), nulls the selection exactly when the selected
clip was among the removed clips, and keeps a null selection null; the
non-existing-track case returns `((false, false))` and changes nothing. -/
theorem removeTrack_correct (s : EditorState) (tid : String) :
    (s.tracks.findIdx? (fun tr => tr.id == tid) = none →
      removeTrack s tid = ((false, false), s)) ∧
    (∀ i, s.tracks.findIdx? (fun tr => tr.id == tid) = some i →
      (removeTrack s tid).1.1 = true ∧
      ((removeTrack s tid).1.2 = true ↔
        s.clips.filter (fun c => c.trackId == tid) ≠ []) ∧
      (removeTrack s tid).2.clips =
        s.clips.filter (fun c => !(c.trackId == tid)) ∧
      ((removeTrack s tid).2.tracks.map Track.id).Perm
        ((s.tracks.eraseIdx i).map Track.id) ∧
      (∀ sel, s.selectedClipId = some sel → sel ≠ "" →
        (((s.clips.filter (fun c => c.trackId == tid)).any
            (fun c => c.id == sel)) = true →
          (removeTrack s tid).2.selectedClipId = none) ∧
        (((s.clips.filter (fun c => c.trackId == tid)).any
            (fun c => c.id == sel)) = false →
          (removeTrack s tid).2.selectedClipId = some sel)) ∧
      (s.selectedClipId = none →
        (removeTrack s tid).2.selectedClipId = none)) := by
  constructor
  · intro hn
    unfold removeTrack
    rw [hn]
  · intro i hi
    unfold removeTrack
    rw [hi]
    dsimp only
    by_cases hhad : 0 < (s.clips.filter (fun c => c.trackId == tid)).length
    · rw [if_pos (by simpa using hhad)]
      refine ⟨rfl, ?_, rfl, ?_, ?_, ?_⟩
      · show decide (0 < (s.clips.filter (fun c => c.trackId == tid)).length) = true ↔ _
        simp [List.length_pos]
      · exact renumberTracks_map_id _
      · intro sel hsel hne
        constructor
        · intro hany
          show (updateDuration (renumberTracks _)).selectedClipId = none
          rw [updateDuration_sel, renumberTracks_sel]
          dsimp only
          rw [hsel]
          simp [hne, hany]
        · intro hany
          show (updateDuration (renumberTracks _)).selectedClipId = some sel
          rw [updateDuration_sel, renumberTracks_sel]
          dsimp only
          rw [hsel]
          simp [hne, hany]
      · intro h
        show (updateDuration (renumberTracks _)).selectedClipId = none
        rw [updateDuration_sel, renumberTracks_sel]
        dsimp only
        rw [h]
    · have hfil : s.clips.filter (fun c => c.trackId == tid) = [] :=
        List.length_eq_zero.mp (Nat.eq_zero_of_not_pos hhad)
      rw [if_neg (by simpa using hhad)]
      have hnone : ∀ c ∈ s.clips, (c.trackId == tid) = false := by
        intro c hc
        by_contra hb
        have hmem : c ∈ s.clips.filter (fun c => c.trackId == tid) :=
          List.mem_filter.mpr ⟨hc, by simpa using hb⟩
        rw [hfil] at hmem
        simp at hmem
      refine ⟨rfl, ?_, ?_, ?_, ?_, ?_⟩
      · show decide (0 < (s.clips.filter (fun c => c.trackId == tid)).length) = true ↔ _
        simp [List.length_pos]
      · show s.clips = _
        exact (List.filter_eq_self.mpr (fun c hc => by simp [hnone c hc])).symm
      · exact renumberTracks_map_id _
      · intro sel hsel hne
        constructor
        · intro hany
          rw [hfil] at hany
          simp at hany
        · intro hany
          show (updateDuration (renumberTracks _)).selectedClipId = some sel
          rw [updateDuration_sel, renumberTracks_sel]
          exact hsel
      · intro h
        show (updateDuration (renumberTracks _)).selectedClipId = none
        rw [updateDuration_sel, renumberTracks_sel]
        exact h

/-- Witness for C8 on the one-clip fixture: removing `video-1` succeeds,
reports `hadClips = true`, deletes the clip, and removes the track. -/
theorem removeTrack_correct_witness :
    s0.tracks.findIdx? (fun tr => tr.id == "video-1") = some 0 ∧
    (removeTrack s0 "video-1").1.1 = true ∧
    ((removeTrack s0 "video-1").1.2 = true ↔
      s0.clips.filter (fun c => c.trackId == "video-1") ≠ []) ∧
    (removeTrack s0 "video-1").2.clips =
      s0.clips.filter (fun c => !(c.trackId == "video-1")) := by
  have hi : s0.tracks.findIdx? (fun tr => tr.id == "video-1") = some 0 := by
    simp +decide [s0, videoTrack1]
  have h := (removeTrack_correct s0 "video-1").2 0 hi
  exact ⟨hi, h.1, h.2.1, h.2.2.1⟩

/-- C9: during playback, `syncMediaElement` reseeks a currently-playing
(non-paused) element only when the absolute difference between its actual
position and the expected source time `sourceStart + (timelineTime -
timelineStart)` (in seconds) exceeds the per-kind drift threshold; when it
reseeks, it seeks exactly to the expected time; and the video threshold
(0.1 s) is strictly smaller than the audio threshold (0.5 s). -/
theorem drift_resync_only_on_threshold (element : MediaElement)
    (clip : ActiveClip) (t : ℚ) (hplaying : element.paused = false) :
    ((syncMediaElement element clip t true).currentTime ≠ element.currentTime →
      syncThresholdFor (decide (element.kind = ElementKind.audio)) <
        |element.currentTime - getSourceTime clip t / 1000|) ∧
    (syncThresholdFor (decide (element.kind = ElementKind.audio)) <
        |element.currentTime - getSourceTime clip t / 1000| →
      (syncMediaElement element clip t true).currentTime =
        getSourceTime clip t / 1000) ∧
    syncThresholdFor false < syncThresholdFor true := by
  have key : syncMediaElement element clip t true =
      if |element.currentTime - getSourceTime clip t / 1000| >
          syncThresholdFor (decide (element.kind = ElementKind.audio)) then
        { element with currentTime := getSourceTime clip t / 1000 }
      else element := by
    unfold syncMediaElement
    dsimp only
    rw [if_pos (rfl : true = true), hplaying]
    rw [if_neg (by simp : ¬ (false = true))]
    split_ifs <;> first | rfl | (exfalso; simp_all)
  refine ⟨?_, ?_, by norm_num [syncThresholdFor]⟩
  · intro hne
    rw [key] at hne
    by_cases hd : |element.currentTime - getSourceTime clip t / 1000| >
        syncThresholdFor (decide (element.kind = ElementKind.audio))
    · exact hd
    · rw [if_neg hd] at hne
      exact absurd rfl hne
  · intro hlt
    rw [key, if_pos hlt]

/-- Concrete fixture: a playing (non-paused) video element at position 0 s. -/
def elemV : MediaElement :=
  { kind := ElementKind.video, currentTime := 0, paused := false }

/-- Concrete fixture: an active clip spanning `[0, 5000)` with
`sourceStart = 0`. -/
def clipP : ActiveClip :=
  { clipId := "c", sourceId := "m", timelineStart := 0, duration := 5000,
    sourceStart := 0, sourceEnd := 5000 }

/-- Witness for C9 on the playing video element at timeline time 1000 ms:
the element has drifted a full second, which exceeds the 0.1 s video
threshold, so it is reseeked to the expected source time. -/
theorem drift_resync_only_on_threshold_witness :
    elemV.paused = false ∧
    syncThresholdFor (decide (elemV.kind = ElementKind.audio)) <
      |elemV.currentTime - getSourceTime clipP 1000 / 1000| ∧
    (syncMediaElement elemV clipP 1000 true).currentTime =
      getSourceTime clipP 1000 / 1000 ∧
    syncThresholdFor false < syncThresholdFor true := by
  have h := drift_resync_only_on_threshold elemV clipP 1000 rfl
  have hk : (decide (elemV.kind = ElementKind.audio)) = false := by decide
  have hd : syncThresholdFor (decide (elemV.kind = ElementKind.audio)) <
      |elemV.currentTime - getSourceTime clipP 1000 / 1000| := by
    rw [hk]
    norm_num [syncThresholdFor, elemV, clipP, getSourceTime]
  exact ⟨rfl, hd, h.2.1 hd, h.2.2⟩

end Clipfacile
